import Mathlib

/-!
Shallow embedding of `flashcards.py`, a console flashcard utility:

* `load_flashcards` reads a file, splits it into lines with Python's
  `str.splitlines()`, and keeps the lines that are non-empty and whose
  first character is not the comment marker, storing them in the global
  `flashcards` list.  On an `OSError` it prints the error and returns
  `False`, leaving the global untouched.
* `show_flashcards(wait)` loops while the global stop flag is unset:
  it draws `random.choice(flashcards)`, re-draws while the draw equals
  `last_card`, prints the card, records it as `last_card`, and sleeps.
* `main` parses `--flashcards` and `--wait` (the latter declared
  without a `type=` converter, so a supplied token stays a string),
  calls `load_flashcards`, exits with code 1 on failure, and otherwise
  calls `show_flashcards`.

Lines of text are modelled as `List Char`; randomness is modelled by an
oracle list of natural numbers, each reduced modulo the deck size as
`random.choice` does with its uniform index.
-/

set_option maxHeartbeats 4000000

namespace Flashcards

/-- Characters that Python `str.splitlines()` treats as line terminators. -/
def isLineBreak (c : Char) : Bool :=
  c == '\n' || c == '\r' || c == '\x0b' || c == '\x0c' ||
  c == '\x1c' || c == '\x1d' || c == '\x1e' || c == '\x85' ||
  c == '\u2028' || c == '\u2029'

/-- Python `str.splitlines()` over a character list: `acc` holds the
characters of the current line in reverse.  A line ends at any line-break
character, with a carriage return followed by a newline consumed as a
single break; terminators are dropped, and no trailing empty line is
produced when the input ends with a terminator. -/
def splitlinesAux : List Char → List Char → List (List Char)
  | [], acc => if acc.isEmpty then [] else [acc.reverse]
  | '\r' :: '\n' :: rest, acc => acc.reverse :: splitlinesAux rest []
  | c :: rest, acc =>
    if isLineBreak c then acc.reverse :: splitlinesAux rest []
    else splitlinesAux rest (c :: acc)

/-- Python `content.splitlines()` for a whole file content. -/
def pySplitlines (content : String) : List (List Char) :=
  splitlinesAux content.data []

/-- The comprehension filter of `load_flashcards`:
`card and card[0] != '#'` keeps a truthy (non-empty) line whose first
character is not the comment marker. -/
def keepCard : List Char → Bool
  | [] => false
  | c :: _ => c != '#'

/-- Deck produced by `load_flashcards` from successfully read content:
`f.read().splitlines()` filtered by `keepCard`. -/
def processContent (content : String) : List String :=
  ((pySplitlines content).filter keepCard).map String.mk

/-- Initial value of the global `flashcards` list. -/
def flashcardsInit : List String := []

/-- Model of `load_flashcards`.  `openResult` is the outcome of
`open(flashcard_file)` followed by `f.read()`: `Except.error e` models an
`OSError` with message `e`.  The argument `flashcards` is the global deck
before the call; the result is the returned boolean, the global deck after
the call, and the list of messages printed. -/
def load_flashcards (openResult : Except String String) (flashcards : List String) :
    Bool × List String × List String :=
  match openResult with
  | .error e => (false, flashcards, [e])
  | .ok content => (true, processContent content, [])

/-- Outcome of `main` after the `load_flashcards` call: either the process
exits with a code, or `show_flashcards` is entered with the loaded deck. -/
inductive MainResult where
  | exitWithCode (code : Nat)
  | enteredLoop (deck : List String)
deriving DecidableEq

/-- Model of `main` from the `load_flashcards` call on: on failure it calls
`exit(1)`; on success it enters `show_flashcards`.  Returns the outcome and
the error messages printed by the loader. -/
def mainRun (openResult : Except String String) : MainResult × List String :=
  let r := load_flashcards openResult flashcardsInit
  if r.1 then (MainResult.enteredLoop r.2.1, r.2.2) else (MainResult.exitWithCode 1, r.2.2)

/-- Model of `random.choice(seq)` given the random index `k` (reduced into
range as the uniform draw is); `none` models the `IndexError` raised on an
empty sequence. -/
def pyChoice (seq : List String) (k : Nat) : Option String :=
  seq.get? (k % seq.length)

/-- The selection step of one `show_flashcards` iteration: a first
`random.choice` followed by the `while card == last_card` re-choose loop,
drawing indices from `oracle`.  `none` means no draw differing from `last`
was produced within the oracle (the re-choose loop is still running), or
the deck was empty and `random.choice` raised. -/
def chooseCard (deck : List String) (last : Option String) :
    List Nat → Option (String × List Nat)
  | [] => none
  | k :: ks =>
    match pyChoice deck k with
    | none => none
    | some c => if some c = last then chooseCard deck last ks else some (c, ks)

/-- The `while not stop_flashcards` loop of `show_flashcards`, started with
`last` as `last_card`.  `fuel` is the number of times the loop guard
observes the stop flag still unset: the flag is set during the `fuel`-th
wait, so the check after it exits the loop.  The result is the list of
cards printed; a `none` from `chooseCard` yields no further output. -/
def runLoop (deck : List String) : Nat → List Nat → Option String → List String
  | 0, _, _ => []
  | t + 1, oracle, last =>
    match chooseCard deck last oracle with
    | none => []
    | some (c, rest) => c :: runLoop deck t rest (some c)

/-- State touched by the `show_flashcards` loop body: the global deck, the
`last_card` variable, the text printed so far, and the random oracle. -/
structure LoopState where
  flashcards : List String
  last_card : Option String
  output : List String
  oracle : List Nat

/-- One iteration of the `show_flashcards` body as a state transformer:
the body reads `flashcards`, assigns only `card` and `last_card`, and
prints the chosen card.  When `chooseCard` yields nothing the state is
unchanged (nothing is printed and no variable is updated). -/
def showStep (s : LoopState) : LoopState :=
  match chooseCard s.flashcards s.last_card s.oracle with
  | none => s
  | some (c, rest) =>
    { flashcards := s.flashcards, last_card := some c,
      output := s.output ++ [c], oracle := rest }

/-- `t` iterations of the `show_flashcards` body. -/
def showRun : Nat → LoopState → LoopState
  | 0, s => s
  | t + 1, s => showRun t (showStep s)

/-- A Python value relevant to the `--wait` argument: `argparse` stores
either the default (the int `5`) or the raw command-line token (a str). -/
inductive PyVal where
  | int (n : Int)
  | str (s : String)
deriving DecidableEq

/-- Model of `arg_parser.add_argument('-w', '--wait', ..., default=5)`
followed by `parse_args`: the option was declared without a `type=`
converter, so a supplied token is stored unchanged as a string and no
validation is applied; with no token the default int `5` is used. -/
def parseWait : Option String → PyVal
  | none => .int 5
  | some s => .str s

/-- Whether `time.sleep` accepts the value: it requires a number, and
raises `TypeError` when handed a `str`. -/
def sleepAccepts : PyVal → Bool
  | .int _ => true
  | .str _ => false

/-- The comprehension filter as the spec words it: a line is kept unless
it is blank or its first character is the comment marker. -/
def specKeep (l : List Char) : Bool :=
  !(l.isEmpty || l.head? == some '#')

/-- The Card Loader contract as the spec words it: split into lines,
discard blank lines and lines whose first character is the comment
marker, keep the rest in original order. -/
def cardLoaderSpec (content : String) : List String :=
  ((pySplitlines content).filter specKeep).map String.mk

lemma keepCard_eq_specKeep : keepCard = specKeep := by
  funext l; cases l <;> rfl

lemma splitlinesAux_no_break :
    ∀ (input acc : List Char), (∀ c ∈ acc, isLineBreak c = false) →
      ∀ l ∈ splitlinesAux input acc, ∀ c ∈ l, isLineBreak c = false := by
  intro input acc
  induction input, acc using splitlinesAux.induct with
  | case1 acc hemp =>
    intro _hacc l hl _c _hc
    rw [splitlinesAux.eq_1, if_pos hemp] at hl
    simp at hl
  | case2 acc hemp =>
    intro hacc l hl c hc
    rw [splitlinesAux.eq_1, if_neg hemp] at hl
    rw [List.mem_singleton] at hl
    subst hl
    exact hacc c (List.mem_reverse.mp hc)
  | case3 rest acc ih =>
    intro hacc l hl c hc
    rw [splitlinesAux.eq_2] at hl
    rcases List.mem_cons.mp hl with h | h
    · subst h; exact hacc c (List.mem_reverse.mp hc)
    · exact ih (by simp) l h c hc
  | case4 c0 rest acc hnm hbr ih =>
    intro hacc l hl c hc
    rw [splitlinesAux.eq_3 acc c0 rest hnm, if_pos hbr] at hl
    rcases List.mem_cons.mp hl with h | h
    · subst h; exact hacc c (List.mem_reverse.mp hc)
    · exact ih (by simp) l h c hc
  | case5 c0 rest acc hnm hbr ih =>
    intro hacc l hl c hc
    rw [splitlinesAux.eq_3 acc c0 rest hnm, if_neg hbr] at hl
    refine ih ?_ l hl c hc
    intro x hx
    rcases List.mem_cons.mp hx with h | h
    · subst h; simpa using hbr
    · exact hacc x h

lemma mem_pySplitlines_no_break (content : String) :
    ∀ l ∈ pySplitlines content, ∀ c ∈ l, isLineBreak c = false :=
  splitlinesAux_no_break content.data [] (by simp)

lemma chooseCard_ne_last {deck : List String} {last : Option String} :
    ∀ {oracle : List Nat} {c : String} {rest : List Nat},
      chooseCard deck last oracle = some (c, rest) → some c ≠ last := by
  intro oracle
  induction oracle with
  | nil => intro c rest h; simp [chooseCard] at h
  | cons k ks ih =>
    intro c rest h
    rw [chooseCard] at h
    cases hp : pyChoice deck k with
    | none => simp [hp] at h
    | some c0 =>
      simp only [hp] at h
      by_cases he : some c0 = last
      · rw [if_pos he] at h; exact ih h
      · rw [if_neg he] at h
        simp only [Option.some.injEq, Prod.mk.injEq] at h
        rw [← h.1]
        exact he

lemma runLoop_sep (deck : List String) :
    ∀ (t : Nat) (oracle : List Nat) (last : Option String),
      List.Chain' (fun a b => a ≠ b) (runLoop deck t oracle last) ∧
      (∀ c, (runLoop deck t oracle last).head? = some c → some c ≠ last) := by
  intro t
  induction t with
  | zero => intro oracle last; simp [runLoop]
  | succ n ih =>
    intro oracle last
    cases hc : chooseCard deck last oracle with
    | none => simp [runLoop, hc]
    | some pr =>
      obtain ⟨c, rest⟩ := pr
      simp only [runLoop, hc]
      constructor
      · rw [List.chain'_cons']
        refine ⟨?_, (ih rest (some c)).1⟩
        intro y hy
        have hne := (ih rest (some c)).2 y hy
        simp only [ne_eq, Option.some.injEq] at hne
        exact fun h => hne h.symm
      · intro c0 h0
        simp only [List.head?_cons, Option.some.injEq] at h0
        subst h0
        exact chooseCard_ne_last hc

lemma chooseCard_single_stuck :
    ∀ oracle : List Nat, chooseCard ["A"] (some "A") oracle = none := by
  intro oracle
  induction oracle with
  | nil => rfl
  | cons k ks ih =>
    have hp : pyChoice ["A"] k = some "A" := by
      simp [pyChoice, Nat.mod_one]
    simp [chooseCard, hp, ih]

lemma showStep_flashcards (s : LoopState) : (showStep s).flashcards = s.flashcards := by
  unfold showStep
  cases chooseCard s.flashcards s.last_card s.oracle with
  | none => rfl
  | some pr => obtain ⟨c, rest⟩ := pr; rfl

/-- C1: refutes the claim that the re-choose step is skipped or terminates
on a one-card deck.  On the deck `["A"]`, once `"A"` has been printed,
every later `random.choice` equals `last_card`, so the inner
`while card == last_card` loop never produces a card: no matter how many
further cycles the run has (`t + 2` flag checks) and whatever the random
draws, exactly one card is ever printed — the loop hangs instead of
showing the card every cycle. -/
theorem size_one_deck_hangs :
    (∀ oracle : List Nat, chooseCard ["A"] (some "A") oracle = none) ∧
      (∀ (t : Nat) (k : Nat) (ks : List Nat),
        runLoop ["A"] (t + 2) (k :: ks) none = ["A"]) := by
  constructor
  · exact chooseCard_single_stuck
  · intro t k ks
    have hp : pyChoice ["A"] k = some "A" := by
      simp [pyChoice, Nat.mod_one]
    have h1 : chooseCard ["A"] none (k :: ks) = some ("A", ks) := by
      simp [chooseCard, hp]
    rw [runLoop]
    simp only [h1]
    rw [runLoop]
    simp only [chooseCard_single_stuck ks]

/-- C2: refutes the claim that an empty deck is rejected before the
display loop.  A file of only comment and blank lines makes
`load_flashcards` return `True` with an empty deck, so `main` does not
exit and `show_flashcards` is entered, where the first
`random.choice(flashcards)` on the empty list raises `IndexError`
(modelled by `none`). -/
theorem empty_deck_enters_loop :
    mainRun (.ok "# a\n\n# b") = (MainResult.enteredLoop [], []) ∧
      (∀ k : Nat, pyChoice [] k = none) := by
  constructor
  · rfl
  · intro k; simp [pyChoice]

/-- C3: the Card Loader returns exactly the split lines that are non-empty
and do not start with the comment marker, in original order (it equals the
spec-side filter), each returned line contains no line-terminator
character, and a file whose lines are all blank or comments yields the
empty deck. -/
theorem card_loader_exact (content : String) :
    processContent content = cardLoaderSpec content ∧
      (∀ s ∈ processContent content, ∀ c ∈ s.data, isLineBreak c = false) ∧
      ((∀ l ∈ pySplitlines content, l = [] ∨ l.head? = some '#') →
        processContent content = []) := by
  refine ⟨?_, ?_, ?_⟩
  · rw [processContent, cardLoaderSpec, keepCard_eq_specKeep]
  · intro s hs c hc
    rw [processContent, List.mem_map] at hs
    obtain ⟨l, hl, rfl⟩ := hs
    exact mem_pySplitlines_no_break content l (List.mem_of_mem_filter hl) c hc
  · intro hall
    rw [processContent]
    have hnil : (pySplitlines content).filter keepCard = [] := by
      rw [List.filter_eq_nil_iff]
      intro l hl
      rcases hall l hl with h | h
      · subst h; simp [keepCard]
      · cases l with
        | nil => simp [keepCard]
        | cons c0 t =>
          simp only [List.head?_cons, Option.some.injEq] at h
          subst h
          simp [keepCard]
    rw [hnil]
    rfl

/-- Witness for C3 at a concrete comment-and-blank-only file. -/
theorem card_loader_exact_witness : processContent "# x\n\n" = [] :=
  (card_loader_exact "# x\n\n").2.2 (by decide)

/-- C4: when opening or reading the file raises `OSError`,
`load_flashcards` prints the message and returns `False`, and `main`
exits with code 1 without entering `show_flashcards`. -/
theorem open_failure_exits_one (e : String) :
    mainRun (.error e) = (MainResult.exitWithCode 1, [e]) := rfl

/-- C5: refutes the claim that a malformed wait value is rejected at
argument-parsing time and that a fractional value is used as the wait.
The option was declared without a converter, so any token parses
successfully into a raw string — including both a non-numeric token and
the well-formed token 1.5 — and `time.sleep` then rejects the string with
`TypeError`; only the un-overridden default (the int `5`) is a value
`time.sleep` accepts. -/
theorem wait_arg_not_validated :
    (∀ s : String,
        parseWait (some s) = PyVal.str s ∧ sleepAccepts (PyVal.str s) = false) ∧
      parseWait (some "1.5") = PyVal.str "1.5" ∧
      sleepAccepts (parseWait (some "1.5")) = false ∧
      sleepAccepts (parseWait (some "abc")) = false ∧
      sleepAccepts (parseWait none) = true :=
  ⟨fun _ => ⟨rfl, rfl⟩, rfl, rfl, rfl, rfl⟩

/-- C6: for a deck of at least two cards, in any run of the display loop
— any number of cycles and any random draws — no two consecutively
printed cards are equal. -/
theorem no_consecutive_repeats (deck : List String) (h : 2 ≤ deck.length)
    (t : Nat) (oracle : List Nat) :
    List.Chain' (fun a b => a ≠ b) (runLoop deck t oracle none) :=
  (runLoop_sep deck t oracle none).1

/-- Witness for C6 on a two-card deck and a concrete run. -/
theorem no_consecutive_repeats_witness :
    2 ≤ (["A", "B"] : List String).length ∧
      List.Chain' (fun a b => a ≠ b) (runLoop ["A", "B"] 3 [0, 0, 1, 0, 1] none) :=
  ⟨by decide, no_consecutive_repeats ["A", "B"] (by decide) 3 [0, 0, 1, 0, 1]⟩

/-- C7: a loop check that observes the stop flag set produces no output at
all (the run started with the flag set prints nothing), and in general a
run whose flag is set during the `t`-th wait prints at most `t` cards —
no card is printed after the flag is observed. -/
theorem stop_flag_halts_loop (deck : List String) (t : Nat)
    (oracle oracle2 : List Nat) (last last2 : Option String) :
    runLoop deck 0 oracle last = [] ∧
      (runLoop deck t oracle2 last2).length ≤ t := by
  refine ⟨rfl, ?_⟩
  induction t generalizing oracle2 last2 with
  | zero => simp [runLoop]
  | succ n ih =>
    cases hc : chooseCard deck last2 oracle2 with
    | none => simp [runLoop, hc]
    | some pr =>
      obtain ⟨c, rest⟩ := pr
      simp only [runLoop, hc, List.length_cons]
      exact Nat.succ_le_succ (ih rest (some c))

/-- C8: the display loop never modifies the deck: after any number of
iterations of the `show_flashcards` body, the `flashcards` list is the one
the loop started with, contents and order unchanged. -/
theorem deck_unmodified_by_loop (t : Nat) (s : LoopState) :
    (showRun t s).flashcards = s.flashcards := by
  induction t generalizing s with
  | zero => rfl
  | succ n ih =>
    rw [showRun, ih (showStep s), showStep_flashcards]

/-- C9: the loader's exclusion test is exactly "empty, or first character
is the comment marker": a whitespace-only line and a line whose marker is
preceded by a space are both retained by the full loader. -/
theorem exclusion_test_exact :
    (∀ l : List Char, keepCard l = true ↔ (l ≠ [] ∧ l.head? ≠ some '#')) ∧
      processContent "alpha\n \n # note\n# skip\n\nbeta" =
        ["alpha", " ", " # note", "beta"] := by
  constructor
  · intro l
    cases l with
    | nil => simp [keepCard]
    | cons c t => simp [keepCard]
  · decide

/-- C10: on an open failure `load_flashcards` returns `False`, prints the
error, and the global deck keeps whatever value it had before the call. -/
theorem load_failure_preserves_deck (e : String) (deck : List String) :
    load_flashcards (.error e) deck = (false, deck, [e]) := rfl

end Flashcards
